import Mathlib

/-!
Shallow embedding of the tangent-raycasting visibility engine
(`pygame_experiments/tangent raycasting/main.py`) over exact real arithmetic.

The four core functions `get_tangents`, `circle_line_intersection`,
`get_first_intersection` and `is_visible` are translated directly from the
Python source.  Python's `ZeroDivisionError` (raised when the quadratic
coefficient `A` is zero and a division is attempted) is modelled with an
`Except` error value; everything else is a pure function of its inputs.
-/

namespace TangentRay

/-- A 2D point, as produced by the intersection routine (`[x, y]` in the source). -/
structure Point where
  x : ℝ
  y : ℝ

/-- A circle `(x, y, r)` as used throughout the source. -/
structure Circle where
  x : ℝ
  y : ℝ
  r : ℝ

/-- A segment `[x1, y1, x2, y2]` as produced by `get_tangents` and consumed as a ray. -/
structure Segment where
  x1 : ℝ
  y1 : ℝ
  x2 : ℝ
  y2 : ℝ

/-- The runtime failure the Python code can actually produce in the core:
an unguarded division by zero (`ZeroDivisionError`). -/
inductive GeomError where
  | divisionByZero

/-- Quadratic coefficient `A = dx**2 + dy**2` from `circle_line_intersection`. -/
noncomputable def quadA (x1 y1 x2 y2 : ℝ) : ℝ :=
  (x2 - x1) ^ 2 + (y2 - y1) ^ 2

/-- Quadratic coefficient `B = 2 * (dx * (x1 - cx) + dy * (y1 - cy))`. -/
noncomputable def quadB (cx cy x1 y1 x2 y2 : ℝ) : ℝ :=
  2 * ((x2 - x1) * (x1 - cx) + (y2 - y1) * (y1 - cy))

/-- Quadratic coefficient `C = (x1 - cx)**2 + (y1 - cy)**2 - cr**2`. -/
noncomputable def quadC (cx cy cr x1 y1 : ℝ) : ℝ :=
  (x1 - cx) ^ 2 + (y1 - cy) ^ 2 - cr ^ 2

/-- Discriminant `det = B**2 - 4*A*C` from `circle_line_intersection`. -/
noncomputable def quadDet (cx cy cr x1 y1 x2 y2 : ℝ) : ℝ :=
  quadB cx cy x1 y1 x2 y2 ^ 2 - 4 * quadA x1 y1 x2 y2 * quadC cx cy cr x1 y1

/-- Embedding of `circle_line_intersection(cx, cy, cr, x1, y1, x2, y2, lb, ub)`.
The source divides by `2 * A` without guarding `A = 0`; in that case Python
raises `ZeroDivisionError`, modelled here as `Except.error`. -/
noncomputable def circle_line_intersection (cx cy cr x1 y1 x2 y2 : ℝ) (lb ub : Bool) :
    Except GeomError (List Point) :=
  let dx := x2 - x1
  let dy := y2 - y1
  let A := quadA x1 y1 x2 y2
  let B := quadB cx cy x1 y1 x2 y2
  let det := quadDet cx cy cr x1 y1 x2 y2
  if det < 0 then
    Except.ok []
  else if det = 0 then
    if A = 0 then Except.error GeomError.divisionByZero
    else
      let t := -B / (2 * A)
      if (lb = false ∨ 0 ≤ t) ∧ (ub = false ∨ t ≤ 1) then
        Except.ok [⟨x1 + t * dx, y1 + t * dy⟩]
      else
        Except.ok []
  else
    if A = 0 then Except.error GeomError.divisionByZero
    else
      Except.ok ((([-1, 1] : List ℝ).filterMap fun sign =>
        let t := (-B + sign * Real.sqrt det) / (2 * A)
        if (lb = false ∨ 0 ≤ t) ∧ (ub = false ∨ t ≤ 1) then
          some ⟨x1 + t * dx, y1 + t * dy⟩
        else
          none))

/-- Embedding of `get_tangents(x1, y1, r1, x2, y2, r2)`: the outer loop over
`sign1 in [1, -1]` with its `continue`, and the inner loop over `sign2 in [1, -1]`. -/
noncomputable def get_tangents (x1 y1 r1 x2 y2 r2 : ℝ) : List Segment :=
  let d_sq := (x1 - x2) ^ 2 + (y1 - y2) ^ 2
  if d_sq ≤ (r1 - r2) ^ 2 then []
  else
    let d := Real.sqrt d_sq
    let vx := (x2 - x1) / d
    let vy := (y2 - y1) / d
    (([1, -1] : List ℝ).flatMap fun sign1 =>
      let c := (r1 - sign1 * r2) / d
      if c * c > 1 then []
      else
        let h := Real.sqrt (max 0 (1 - c * c))
        (([1, -1] : List ℝ).map fun sign2 =>
          let nx := vx * c - sign2 * h * vy
          let ny := vy * c + sign2 * h * vx
          ⟨x1 + r1 * nx, y1 + r1 * ny, x2 + sign1 * r2 * nx, y2 + sign1 * r2 * ny⟩))

/-- The running-best update of `get_first_intersection`'s inner loop:
replace the candidate iff the new point is strictly closer in `|x - ray.x1|`. -/
noncomputable def gfi_upd (ray : Segment) (c : Circle) (best : Option (Point × Circle))
    (i : Point) : Option (Point × Circle) :=
  match best with
  | none => some (i, c)
  | some b => if |i.x - ray.x1| < |b.1.x - ray.x1| then some (i, c) else some b

/-- One iteration of `get_first_intersection`'s outer loop: query one obstacle
(with `ub=False`, `lb` defaulted to `True`) and fold its points into the best. -/
noncomputable def gfiStep (ray : Segment) (acc : Option (Point × Circle)) (c : Circle) :
    Except GeomError (Option (Point × Circle)) :=
  match circle_line_intersection c.x c.y c.r ray.x1 ray.y1 ray.x2 ray.y2 true false with
  | Except.error e => Except.error e
  | Except.ok intersections => Except.ok (intersections.foldl (gfi_upd ray c) acc)

/-- Embedding of `get_first_intersection(circles, ray)`. -/
noncomputable def get_first_intersection (circles : List Circle) (ray : Segment) :
    Except GeomError (Option (Point × Circle)) :=
  circles.foldlM (fun acc c => gfiStep ray acc c) none

/-- The loop of `is_visible`: early-return `False` on the first blocked tangent. -/
noncomputable def visLoop (obstacles : List Circle) : List Segment → Except GeomError Bool
  | [] => Except.ok true
  | t :: ts =>
    match get_first_intersection obstacles t with
    | Except.error e => Except.error e
    | Except.ok (some _) => Except.ok false
    | Except.ok none => visLoop obstacles ts

/-- Embedding of `is_visible(target, source, obstacles)`: note the source passes
radius `0` for both endpoints (`get_tangents(source[0], source[1], 0, target[0],
target[1], 0)`), ignoring any radii of `target` and `source`. -/
noncomputable def is_visible (target source : Circle) (obstacles : List Circle) :
    Except GeomError Bool :=
  visLoop obstacles (get_tangents source.x source.y 0 target.x target.y 0)

/-! ### Basic facts about the quadratic coefficient `A` -/

/-- A sum of two real squares vanishes iff both summands do. -/
lemma sum_sq_eq_zero_iff (a b : ℝ) : a ^ 2 + b ^ 2 = 0 ↔ a = 0 ∧ b = 0 := by
  constructor
  · intro h
    constructor <;> nlinarith [sq_nonneg a, sq_nonneg b]
  · rintro ⟨ha, hb⟩
    rw [ha, hb]
    ring

/-- `A = 0` exactly for a degenerate segment (coincident endpoints). -/
lemma quadA_eq_zero_iff (x1 y1 x2 y2 : ℝ) :
    quadA x1 y1 x2 y2 = 0 ↔ x1 = x2 ∧ y1 = y2 := by
  unfold quadA
  rw [sum_sq_eq_zero_iff, sub_eq_zero, sub_eq_zero]
  constructor
  · rintro ⟨hx, hy⟩
    exact ⟨hx.symm, hy.symm⟩
  · rintro ⟨hx, hy⟩
    exact ⟨hx.symm, hy.symm⟩

/-- For a segment with distinct endpoints, `A` is nonzero. -/
lemma quadA_ne_zero (x1 y1 x2 y2 : ℝ) (h : ¬(x1 = x2 ∧ y1 = y2)) :
    quadA x1 y1 x2 y2 ≠ 0 := fun h0 => h ((quadA_eq_zero_iff x1 y1 x2 y2).mp h0)

/-! ### The intersection routine on non-degenerate segments -/

/-- The list of points `circle_line_intersection` returns when it does not raise. -/
noncomputable def cliOk (cx cy cr x1 y1 x2 y2 : ℝ) (lb ub : Bool) : List Point :=
  match circle_line_intersection cx cy cr x1 y1 x2 y2 lb ub with
  | Except.ok l => l
  | Except.error _ => []

/-- With `A ≠ 0`, no division by zero happens. -/
lemma cli_ne_error (cx cy cr x1 y1 x2 y2 : ℝ) (lb ub : Bool)
    (h : quadA x1 y1 x2 y2 ≠ 0) (e : GeomError) :
    circle_line_intersection cx cy cr x1 y1 x2 y2 lb ub ≠ Except.error e := by
  simp only [circle_line_intersection]
  split_ifs <;> simp_all

/-- With `A ≠ 0`, the routine returns `Except.ok` of its point list. -/
lemma cli_eq_ok (cx cy cr x1 y1 x2 y2 : ℝ) (lb ub : Bool)
    (h : quadA x1 y1 x2 y2 ≠ 0) :
    circle_line_intersection cx cy cr x1 y1 x2 y2 lb ub =
      Except.ok (cliOk cx cy cr x1 y1 x2 y2 lb ub) := by
  cases hc : circle_line_intersection cx cy cr x1 y1 x2 y2 lb ub with
  | ok l => simp [cliOk, hc]
  | error e => exact absurd hc (cli_ne_error cx cy cr x1 y1 x2 y2 lb ub h e)

/-! ### Tangents between two point-circles collapse to one line -/

/-- With both radii zero and distinct centers, all four emitted tangents are the
single segment from the first center to the second. -/
lemma tangents_pointlike (x1 y1 x2 y2 : ℝ) (h : ¬(x1 = x2 ∧ y1 = y2)) :
    get_tangents x1 y1 0 x2 y2 0 =
      [⟨x1, y1, x2, y2⟩, ⟨x1, y1, x2, y2⟩, ⟨x1, y1, x2, y2⟩, ⟨x1, y1, x2, y2⟩] := by
  have hd : 0 < (x1 - x2) ^ 2 + (y1 - y2) ^ 2 := by
    rcases not_and_or.mp h with hx | hy
    · have hx' : x1 - x2 ≠ 0 := sub_ne_zero.mpr hx
      positivity
    · have hy' : y1 - y2 ≠ 0 := sub_ne_zero.mpr hy
      positivity
  simp only [get_tangents]
  rw [if_neg (by push_neg; simpa using hd)]
  norm_num [List.flatMap]

/-! ### Claim theorems: degenerate segments, nested circles, point tangents, parity -/

/-- C2: the code does NOT guard degenerate segments with an explicit
InvalidGeometry check; for any circle and any segment with coincident endpoints
it reaches `t = -B / (2 * A)` with `A = 0` and raises `ZeroDivisionError`.
(Here: evaluates to the division-by-zero error, not a geometry-validation error.) -/
theorem C2_degenerate_segment_divides_by_zero (cx cy cr x y : ℝ) (lb ub : Bool) :
    circle_line_intersection cx cy cr x y x y lb ub =
      Except.error GeomError.divisionByZero := by
  simp only [circle_line_intersection, quadA, quadB, quadC, quadDet]
  norm_num

/-- C5: when the squared center distance is at most `(r1 - r2)^2` (one circle
nested in the other, or concentric), `get_tangents` returns the empty list. -/
theorem C5_nested_circles_empty (x1 y1 r1 x2 y2 r2 : ℝ)
    (h : (x1 - x2) ^ 2 + (y1 - y2) ^ 2 ≤ (r1 - r2) ^ 2) :
    get_tangents x1 y1 r1 x2 y2 r2 = [] := by
  simp only [get_tangents]
  rw [if_pos h]

/-- C5 witness: circle radius 1 at distance 1 inside circle radius 5. -/
theorem C5_nested_circles_empty_witness :
    ((0:ℝ) - 1) ^ 2 + ((0:ℝ) - 0) ^ 2 ≤ ((5:ℝ) - 1) ^ 2 ∧
      get_tangents 0 0 5 1 0 1 = [] :=
  ⟨by norm_num, C5_nested_circles_empty 0 0 5 1 0 1 (by norm_num)⟩

/-- C9: for two radius-0 circles with distinct centers, all four returned
tangent segments are identical and run from the first center to the second. -/
theorem C9_point_circles_collapse (x1 y1 x2 y2 : ℝ) (h : ¬(x1 = x2 ∧ y1 = y2)) :
    get_tangents x1 y1 0 x2 y2 0 =
      [⟨x1, y1, x2, y2⟩, ⟨x1, y1, x2, y2⟩, ⟨x1, y1, x2, y2⟩, ⟨x1, y1, x2, y2⟩] :=
  tangents_pointlike x1 y1 x2 y2 h

/-- C9 witness: points (0,0) and (1,2). -/
theorem C9_point_circles_collapse_witness :
    ¬((0:ℝ) = 1 ∧ (0:ℝ) = 2) ∧
      get_tangents 0 0 0 1 2 0 =
        [⟨0, 0, 1, 2⟩, ⟨0, 0, 1, 2⟩, ⟨0, 0, 1, 2⟩, ⟨0, 0, 1, 2⟩] :=
  ⟨by norm_num, C9_point_circles_collapse 0 0 1 2 (by norm_num)⟩

/-- C10: `get_tangents` always returns 0, 2 or 4 segments, never 1 or 3:
each `sign1` family contributes both of its tangents or neither, and the
`sign1 = 1` family is feasible whenever the nesting guard passes. -/
theorem C10_tangent_count_even (x1 y1 r1 x2 y2 r2 : ℝ) :
    (get_tangents x1 y1 r1 x2 y2 r2).length = 0 ∨
    (get_tangents x1 y1 r1 x2 y2 r2).length = 2 ∨
    (get_tangents x1 y1 r1 x2 y2 r2).length = 4 := by
  by_cases hg : (x1 - x2) ^ 2 + (y1 - y2) ^ 2 ≤ (r1 - r2) ^ 2
  · left
    simp [get_tangents, if_pos hg]
  · right
    have hlt : (r1 - r2) ^ 2 < (x1 - x2) ^ 2 + (y1 - y2) ^ 2 := lt_of_not_le hg
    have hpos : 0 < (x1 - x2) ^ 2 + (y1 - y2) ^ 2 := lt_of_le_of_lt (sq_nonneg _) hlt
    have hd2 : Real.sqrt ((x1 - x2) ^ 2 + (y1 - y2) ^ 2) ^ 2
        = (x1 - x2) ^ 2 + (y1 - y2) ^ 2 := Real.sq_sqrt hpos.le
    have hdpos : 0 < Real.sqrt ((x1 - x2) ^ 2 + (y1 - y2) ^ 2) := Real.sqrt_pos.mpr hpos
    have hc1 : ¬(1 < (r1 - r2) / Real.sqrt ((x1 - x2) ^ 2 + (y1 - y2) ^ 2) *
        ((r1 - r2) / Real.sqrt ((x1 - x2) ^ 2 + (y1 - y2) ^ 2))) := by
      rw [not_lt, div_mul_div_comm, div_le_one (mul_pos hdpos hdpos)]
      nlinarith [hd2, hlt]
    by_cases hc2 : 1 < (r1 + r2) / Real.sqrt ((x1 - x2) ^ 2 + (y1 - y2) ^ 2) *
        ((r1 + r2) / Real.sqrt ((x1 - x2) ^ 2 + (y1 - y2) ^ 2))
    · left
      simp [get_tangents, List.flatMap, if_neg hg, hc1, hc2]
    · right
      simp [get_tangents, List.flatMap, if_neg hg, hc1, hc2]

/-! ### Tangent endpoints lie on their circles (C4) -/

/-- Reduce a square-root goal to a squaring identity. -/
lemma sqrt_eq_of_sq (e r : ℝ) (hr : 0 ≤ r) (h : e = r ^ 2) : Real.sqrt e = r := by
  rw [h, Real.sqrt_sq hr]

/-- The direction vector `v` computed by `get_tangents` has unit norm. -/
lemma unit_v (x1 y1 x2 y2 : ℝ) (hpos : 0 < (x1 - x2) ^ 2 + (y1 - y2) ^ 2) :
    ((x2 - x1) / Real.sqrt ((x1 - x2) ^ 2 + (y1 - y2) ^ 2)) ^ 2 +
      ((y2 - y1) / Real.sqrt ((x1 - x2) ^ 2 + (y1 - y2) ^ 2)) ^ 2 = 1 := by
  have hd2 : Real.sqrt ((x1 - x2) ^ 2 + (y1 - y2) ^ 2) ^ 2 = (x1 - x2) ^ 2 + (y1 - y2) ^ 2 :=
    Real.sq_sqrt hpos.le
  have hdne : Real.sqrt ((x1 - x2) ^ 2 + (y1 - y2) ^ 2) ≠ 0 :=
    ne_of_gt (Real.sqrt_pos.mpr hpos)
  rw [div_pow, div_pow, div_add_div_same, hd2, div_eq_one_iff_eq (by positivity)]
  ring

/-- For a feasible family, `c^2 + h^2 = 1` where `h = sqrt(max(0, 1 - c*c))`. -/
lemma c_h_sq (c : ℝ) (hc : c * c ≤ 1) :
    c ^ 2 + Real.sqrt (max 0 (1 - c * c)) ^ 2 = 1 := by
  rw [Real.sq_sqrt (le_max_left 0 _), max_eq_right (by nlinarith)]
  ring

/-- C4: whenever the nesting guard passes and both families are feasible
(`|c| ≤ 1` for both values of `sign1`), `get_tangents` returns exactly four
segments, each starting at distance `r1` from the first center and ending at
distance `r2` from the second (exactly, in real arithmetic). -/
theorem C4_tangents_touch_circles (x1 y1 r1 x2 y2 r2 : ℝ)
    (hr1 : 0 ≤ r1) (hr2 : 0 ≤ r2)
    (hd : (r1 - r2) ^ 2 < (x1 - x2) ^ 2 + (y1 - y2) ^ 2)
    (hc : ∀ s : ℝ, s = 1 ∨ s = -1 →
      |(r1 - s * r2) / Real.sqrt ((x1 - x2) ^ 2 + (y1 - y2) ^ 2)| ≤ 1) :
    (get_tangents x1 y1 r1 x2 y2 r2).length = 4 ∧
    ∀ seg ∈ get_tangents x1 y1 r1 x2 y2 r2,
      Real.sqrt ((seg.x1 - x1) ^ 2 + (seg.y1 - y1) ^ 2) = r1 ∧
      Real.sqrt ((seg.x2 - x2) ^ 2 + (seg.y2 - y2) ^ 2) = r2 := by
  have hpos : 0 < (x1 - x2) ^ 2 + (y1 - y2) ^ 2 := lt_of_le_of_lt (sq_nonneg _) hd
  have h1 := hc 1 (Or.inl rfl)
  rw [one_mul] at h1
  have h2 := hc (-1) (Or.inr rfl)
  rw [neg_one_mul, sub_neg_eq_add] at h2
  have hm1 : ¬(1 < (r1 - r2) / Real.sqrt ((x1 - x2) ^ 2 + (y1 - y2) ^ 2) *
      ((r1 - r2) / Real.sqrt ((x1 - x2) ^ 2 + (y1 - y2) ^ 2))) :=
    not_lt.mpr (by nlinarith [abs_nonneg ((r1 - r2) / Real.sqrt ((x1 - x2) ^ 2 + (y1 - y2) ^ 2)),
      abs_mul_abs_self ((r1 - r2) / Real.sqrt ((x1 - x2) ^ 2 + (y1 - y2) ^ 2))])
  have hm2 : ¬(1 < (r1 + r2) / Real.sqrt ((x1 - x2) ^ 2 + (y1 - y2) ^ 2) *
      ((r1 + r2) / Real.sqrt ((x1 - x2) ^ 2 + (y1 - y2) ^ 2))) :=
    not_lt.mpr (by nlinarith [abs_nonneg ((r1 + r2) / Real.sqrt ((x1 - x2) ^ 2 + (y1 - y2) ^ 2)),
      abs_mul_abs_self ((r1 + r2) / Real.sqrt ((x1 - x2) ^ 2 + (y1 - y2) ^ 2))])
  have hv := unit_v x1 y1 x2 y2 hpos
  have hch1 := c_h_sq ((r1 - r2) / Real.sqrt ((x1 - x2) ^ 2 + (y1 - y2) ^ 2)) (not_lt.mp hm1)
  have hch2 := c_h_sq ((r1 + r2) / Real.sqrt ((x1 - x2) ^ 2 + (y1 - y2) ^ 2)) (not_lt.mp hm2)
  constructor
  · simp [get_tangents, List.flatMap, if_neg (not_le.mpr hd), hm1, hm2]
  · intro seg hseg
    simp [get_tangents, List.flatMap, if_neg (not_le.mpr hd), hm1, hm2] at hseg
    set sd := Real.sqrt ((x1 - x2) ^ 2 + (y1 - y2) ^ 2) with hsd
    set c1 := (r1 - r2) / sd with hc1def
    set c2 := (r1 + r2) / sd with hc2def
    set e1 := Real.sqrt (max 0 (1 - c1 * c1)) with he1def
    set e2 := Real.sqrt (max 0 (1 - c2 * c2)) with he2def
    obtain rfl | rfl | rfl | rfl := hseg <;> refine ⟨?_, ?_⟩ <;> dsimp only
    · refine sqrt_eq_of_sq _ _ hr1 ?_
      linear_combination (r1 ^ 2 * c1 ^ 2 + r1 ^ 2 * e1 ^ 2) * hv + r1 ^ 2 * hch1
    · refine sqrt_eq_of_sq _ _ hr2 ?_
      linear_combination (r2 ^ 2 * c1 ^ 2 + r2 ^ 2 * e1 ^ 2) * hv + r2 ^ 2 * hch1
    · refine sqrt_eq_of_sq _ _ hr1 ?_
      linear_combination (r1 ^ 2 * c1 ^ 2 + r1 ^ 2 * e1 ^ 2) * hv + r1 ^ 2 * hch1
    · refine sqrt_eq_of_sq _ _ hr2 ?_
      linear_combination (r2 ^ 2 * c1 ^ 2 + r2 ^ 2 * e1 ^ 2) * hv + r2 ^ 2 * hch1
    · refine sqrt_eq_of_sq _ _ hr1 ?_
      linear_combination (r1 ^ 2 * c2 ^ 2 + r1 ^ 2 * e2 ^ 2) * hv + r1 ^ 2 * hch2
    · refine sqrt_eq_of_sq _ _ hr2 ?_
      linear_combination (r2 ^ 2 * c2 ^ 2 + r2 ^ 2 * e2 ^ 2) * hv + r2 ^ 2 * hch2
    · refine sqrt_eq_of_sq _ _ hr1 ?_
      linear_combination (r1 ^ 2 * c2 ^ 2 + r1 ^ 2 * e2 ^ 2) * hv + r1 ^ 2 * hch2
    · refine sqrt_eq_of_sq _ _ hr2 ?_
      linear_combination (r2 ^ 2 * c2 ^ 2 + r2 ^ 2 * e2 ^ 2) * hv + r2 ^ 2 * hch2

/-! ### Characterising `get_first_intersection` -/

/-- The intersection points a single obstacle contributes to the occlusion scan
of `ray` (flags `lb = true`, `ub = false`, as passed by `get_first_intersection`). -/
noncomputable def ray_pts (c : Circle) (ray : Segment) : List Point :=
  cliOk c.x c.y c.r ray.x1 ray.y1 ray.x2 ray.y2 true false

/-- The pure value computed by `get_first_intersection` when no error occurs. -/
noncomputable def gfi_pure (circles : List Circle) (ray : Segment) : Option (Point × Circle) :=
  circles.foldl (fun acc c => (ray_pts c ray).foldl (gfi_upd ray c) acc) none

/-- The inner-loop update never clears the running best. -/
lemma gfi_upd_ne_none (ray : Segment) (c : Circle) (acc : Option (Point × Circle)) (i : Point) :
    gfi_upd ray c acc i ≠ none := by
  cases acc with
  | none => simp [gfi_upd]
  | some b =>
    simp only [gfi_upd]
    split <;> simp

/-- One obstacle step succeeds on a non-degenerate ray. -/
lemma gfiStep_ok (ray : Segment) (c : Circle) (acc : Option (Point × Circle))
    (h : ¬(ray.x1 = ray.x2 ∧ ray.y1 = ray.y2)) :
    gfiStep ray acc c = Except.ok ((ray_pts c ray).foldl (gfi_upd ray c) acc) := by
  simp only [gfiStep, ray_pts,
    cli_eq_ok c.x c.y c.r ray.x1 ray.y1 ray.x2 ray.y2 true false
      (quadA_ne_zero ray.x1 ray.y1 ray.x2 ray.y2 h)]

/-- The `foldlM` of `get_first_intersection` computes the pure fold on a
non-degenerate ray. -/
lemma gfi_foldlM_ok (ray : Segment) (h : ¬(ray.x1 = ray.x2 ∧ ray.y1 = ray.y2)) :
    ∀ (cs : List Circle) (acc : Option (Point × Circle)),
      List.foldlM (fun acc c => gfiStep ray acc c) acc cs =
        Except.ok (cs.foldl (fun acc c => (ray_pts c ray).foldl (gfi_upd ray c) acc) acc) := by
  intro cs
  induction cs with
  | nil => intro acc; rfl
  | cons c cs ih =>
    intro acc
    simp only [List.foldlM_cons, List.foldl_cons, gfiStep_ok ray c acc h]
    exact ih _

/-- `get_first_intersection` on a non-degenerate ray returns `gfi_pure`. -/
lemma gfi_eq_pure (circles : List Circle) (ray : Segment)
    (h : ¬(ray.x1 = ray.x2 ∧ ray.y1 = ray.y2)) :
    get_first_intersection circles ray = Except.ok (gfi_pure circles ray) :=
  gfi_foldlM_ok ray h circles none

/-- The inner fold is `none` iff it started from `none` with no points. -/
lemma inner_none_iff (ray : Segment) (c : Circle) :
    ∀ (ps : List Point) (acc : Option (Point × Circle)),
      ps.foldl (gfi_upd ray c) acc = none ↔ acc = none ∧ ps = [] := by
  intro ps
  induction ps with
  | nil => intro acc; simp
  | cons q ps ih =>
    intro acc
    rw [List.foldl_cons, ih]
    constructor
    · rintro ⟨hup, -⟩
      exact absurd hup (gfi_upd_ne_none ray c acc q)
    · rintro ⟨-, hq⟩
      exact absurd hq (List.cons_ne_nil q ps)

/-- Any winner of the inner fold is the initial best or one of the scanned points
paired with the scanned obstacle. -/
lemma inner_mem (ray : Segment) (c : Circle) :
    ∀ (ps : List Point) (acc : Option (Point × Circle)) (p : Point) (d : Circle),
      ps.foldl (gfi_upd ray c) acc = some (p, d) →
        acc = some (p, d) ∨ (d = c ∧ p ∈ ps) := by
  intro ps
  induction ps with
  | nil =>
    intro acc p d h
    rw [List.foldl_nil] at h
    exact Or.inl h
  | cons q ps ih =>
    intro acc p d h
    rw [List.foldl_cons] at h
    rcases ih _ p d h with h1 | h1
    · cases acc with
      | none =>
        simp only [gfi_upd, Option.some.injEq, Prod.mk.injEq] at h1
        right
        obtain ⟨rfl, rfl⟩ := h1
        exact ⟨rfl, List.mem_cons_self q ps⟩
      | some b =>
        simp only [gfi_upd] at h1
        split at h1
        · simp only [Option.some.injEq, Prod.mk.injEq] at h1
          right
          obtain ⟨rfl, rfl⟩ := h1
          exact ⟨rfl, List.mem_cons_self q ps⟩
        · exact Or.inl h1
    · right
      exact ⟨h1.1, List.mem_cons_of_mem q h1.2⟩

/-- The winner of the inner fold is no farther (in `|x - ray.x1|`) than the
initial best. -/
lemma inner_le_acc (ray : Segment) (c : Circle) :
    ∀ (ps : List Point) (acc : Option (Point × Circle)) (p : Point) (d : Circle)
      (p' : Point) (d' : Circle),
      ps.foldl (gfi_upd ray c) acc = some (p, d) → acc = some (p', d') →
        |p.x - ray.x1| ≤ |p'.x - ray.x1| := by
  intro ps
  induction ps with
  | nil =>
    intro acc p d p' d' h hacc
    rw [List.foldl_nil, hacc] at h
    simp only [Option.some.injEq, Prod.mk.injEq] at h
    obtain ⟨rfl, rfl⟩ := h
    exact le_refl _
  | cons q ps ih =>
    intro acc p d p' d' h hacc
    rw [List.foldl_cons, hacc] at h
    by_cases hcond : |q.x - ray.x1| < |p'.x - ray.x1|
    · have hupd : gfi_upd ray c (some (p', d')) q = some (q, c) := by
        simp [gfi_upd, hcond]
      rw [hupd] at h
      have h1 := ih _ p d q c h rfl
      linarith
    · have hupd : gfi_upd ray c (some (p', d')) q = some (p', d') := by
        simp [gfi_upd, hcond]
      rw [hupd] at h
      exact ih _ p d p' d' h rfl

/-- The winner of the inner fold is no farther than any scanned point. -/
lemma inner_le_pts (ray : Segment) (c : Circle) :
    ∀ (ps : List Point) (acc : Option (Point × Circle)) (p : Point) (d : Circle),
      ps.foldl (gfi_upd ray c) acc = some (p, d) →
        ∀ p' ∈ ps, |p.x - ray.x1| ≤ |p'.x - ray.x1| := by
  intro ps
  induction ps with
  | nil =>
    intro acc p d h p' hp'
    exact absurd hp' (List.not_mem_nil p')
  | cons q ps ih =>
    intro acc p d h p' hp'
    rw [List.foldl_cons] at h
    rcases List.mem_cons.mp hp' with rfl | hmem
    · cases acc with
      | none =>
        have hupd : gfi_upd ray c none p' = some (p', c) := by simp [gfi_upd]
        rw [hupd] at h
        exact inner_le_acc ray c ps _ p d p' c h rfl
      | some b =>
        by_cases hcond : |p'.x - ray.x1| < |b.1.x - ray.x1|
        · have hupd : gfi_upd ray c (some b) p' = some (p', c) := by
            simp [gfi_upd, hcond]
          rw [hupd] at h
          exact inner_le_acc ray c ps _ p d p' c h rfl
        · have hupd : gfi_upd ray c (some b) p' = some b := by
            simp [gfi_upd, hcond]
          rw [hupd] at h
          have h1 := inner_le_acc ray c ps _ p d b.1 b.2 h rfl
          have h2 := not_lt.mp hcond
          linarith
    · exact ih _ p d h p' hmem

/-- The outer fold is `none` iff it started from `none` and every obstacle
contributed no point. -/
lemma outer_none_iff (ray : Segment) :
    ∀ (cs : List Circle) (acc : Option (Point × Circle)),
      cs.foldl (fun acc c => (ray_pts c ray).foldl (gfi_upd ray c) acc) acc = none ↔
        acc = none ∧ ∀ c ∈ cs, ray_pts c ray = [] := by
  intro cs
  induction cs with
  | nil => intro acc; simp
  | cons c cs ih =>
    intro acc
    rw [List.foldl_cons, ih, inner_none_iff]
    constructor
    · rintro ⟨⟨h1, h2⟩, h3⟩
      refine ⟨h1, ?_⟩
      intro c' hc'
      rcases List.mem_cons.mp hc' with rfl | hm
      · exact h2
      · exact h3 c' hm
    · rintro ⟨h1, h2⟩
      exact ⟨⟨h1, h2 c (List.mem_cons_self c cs)⟩,
        fun c' hc' => h2 c' (List.mem_cons_of_mem c hc')⟩

/-- Any winner of the outer fold is the initial best or a point contributed by
one of the scanned obstacles, paired with that obstacle. -/
lemma outer_mem (ray : Segment) :
    ∀ (cs : List Circle) (acc : Option (Point × Circle)) (p : Point) (d : Circle),
      cs.foldl (fun acc c => (ray_pts c ray).foldl (gfi_upd ray c) acc) acc = some (p, d) →
        acc = some (p, d) ∨ (d ∈ cs ∧ p ∈ ray_pts d ray) := by
  intro cs
  induction cs with
  | nil =>
    intro acc p d h
    rw [List.foldl_nil] at h
    exact Or.inl h
  | cons c cs ih =>
    intro acc p d h
    rw [List.foldl_cons] at h
    rcases ih _ p d h with h1 | h1
    · rcases inner_mem ray c (ray_pts c ray) acc p d h1 with h2 | h2
      · exact Or.inl h2
      · right
        obtain ⟨rfl, hm⟩ := h2
        exact ⟨List.mem_cons_self _ _, hm⟩
    · right
      exact ⟨List.mem_cons_of_mem c h1.1, h1.2⟩

/-- The winner of the outer fold minimises `|x - ray.x1|` against the initial
best and against every point contributed by every scanned obstacle. -/
lemma outer_le (ray : Segment) :
    ∀ (cs : List Circle) (acc : Option (Point × Circle)) (p : Point) (d : Circle),
      cs.foldl (fun acc c => (ray_pts c ray).foldl (gfi_upd ray c) acc) acc = some (p, d) →
        (∀ (p' : Point) (d' : Circle), acc = some (p', d') →
          |p.x - ray.x1| ≤ |p'.x - ray.x1|) ∧
        (∀ c' ∈ cs, ∀ p' ∈ ray_pts c' ray, |p.x - ray.x1| ≤ |p'.x - ray.x1|) := by
  intro cs
  induction cs with
  | nil =>
    intro acc p d h
    rw [List.foldl_nil] at h
    refine ⟨?_, ?_⟩
    · intro p' d' hacc
      rw [hacc] at h
      simp only [Option.some.injEq, Prod.mk.injEq] at h
      obtain ⟨rfl, rfl⟩ := h
      exact le_refl _
    · intro c' hc'
      exact absurd hc' (List.not_mem_nil c')
  | cons c cs ih =>
    intro acc p d h
    rw [List.foldl_cons] at h
    have hih := ih _ p d h
    refine ⟨?_, ?_⟩
    · intro p' d' hacc
      cases h1 : (ray_pts c ray).foldl (gfi_upd ray c) acc with
      | none =>
        have h2 := ((inner_none_iff ray c (ray_pts c ray) acc).mp h1).1
        rw [hacc] at h2
        exact absurd h2 (by simp)
      | some b =>
        have ha := hih.1 b.1 b.2 h1
        have hb := inner_le_acc ray c (ray_pts c ray) acc b.1 b.2 p' d' h1 hacc
        linarith
    · intro c' hc' p' hp'
      rcases List.mem_cons.mp hc' with rfl | hmem
      · cases h1 : (ray_pts c' ray).foldl (gfi_upd ray c') acc with
        | none =>
          have h2 := ((inner_none_iff ray c' (ray_pts c' ray) acc).mp h1).2
          rw [h2] at hp'
          exact absurd hp' (List.not_mem_nil p')
        | some b =>
          have ha := hih.1 b.1 b.2 h1
          have hb := inner_le_pts ray c' (ray_pts c' ray) acc b.1 b.2 h1 p' hp'
          linarith
      · exact hih.2 c' hmem p' hp'

/-! ### C3: the occlusion query contract -/

/-- C3: on a ray with distinct endpoints, `get_first_intersection` succeeds; the
result is `none` exactly when every obstacle's intersection list (queried with
`lb = true`, `ub = false`, i.e. `t ≥ 0` and no upper bound) is empty, and any
returned winner is a point produced by its paired obstacle that minimises the
x-coordinate distance `|p.x - ray.x1|` over all points of all obstacles. -/
theorem C3_first_hit_contract (circles : List Circle) (ray : Segment)
    (h : ¬(ray.x1 = ray.x2 ∧ ray.y1 = ray.y2)) :
    ∃ res, get_first_intersection circles ray = Except.ok res ∧
      (res = none ↔ ∀ c ∈ circles,
        circle_line_intersection c.x c.y c.r ray.x1 ray.y1 ray.x2 ray.y2 true false =
          Except.ok []) ∧
      (∀ (p : Point) (d : Circle), res = some (p, d) →
        d ∈ circles ∧
        (∃ L, circle_line_intersection d.x d.y d.r ray.x1 ray.y1 ray.x2 ray.y2 true false =
            Except.ok L ∧ p ∈ L) ∧
        ∀ c ∈ circles, ∀ L,
          circle_line_intersection c.x c.y c.r ray.x1 ray.y1 ray.x2 ray.y2 true false =
            Except.ok L → ∀ p' ∈ L, |p.x - ray.x1| ≤ |p'.x - ray.x1|) := by
  have hcli : ∀ c : Circle,
      circle_line_intersection c.x c.y c.r ray.x1 ray.y1 ray.x2 ray.y2 true false =
        Except.ok (ray_pts c ray) := fun c =>
    cli_eq_ok c.x c.y c.r ray.x1 ray.y1 ray.x2 ray.y2 true false
      (quadA_ne_zero ray.x1 ray.y1 ray.x2 ray.y2 h)
  refine ⟨gfi_pure circles ray, gfi_eq_pure circles ray h, ?_, ?_⟩
  · unfold gfi_pure
    rw [outer_none_iff]
    simp only [hcli, Except.ok.injEq, true_and]
  · intro p d hres
    unfold gfi_pure at hres
    rcases outer_mem ray circles none p d hres with h1 | h1
    · exact absurd h1 (by simp)
    · have hle := (outer_le ray circles none p d hres).2
      refine ⟨h1.1, ⟨ray_pts d ray, hcli d, h1.2⟩, ?_⟩
      intro c hc L hL p' hp'
      rw [hcli c] at hL
      simp only [Except.ok.injEq] at hL
      exact hle c hc p' (hL ▸ hp')

/-- C3 witness: empty obstacle list and the unit ray along the x-axis. -/
theorem C3_first_hit_contract_witness :
    ¬((0:ℝ) = 1 ∧ (0:ℝ) = 0) ∧
    (∃ res, get_first_intersection [] ⟨0, 0, 1, 0⟩ = Except.ok res ∧
      (res = none ↔ ∀ c ∈ ([] : List Circle),
        circle_line_intersection c.x c.y c.r 0 0 1 0 true false = Except.ok []) ∧
      (∀ (p : Point) (d : Circle), res = some (p, d) →
        d ∈ ([] : List Circle) ∧
        (∃ L, circle_line_intersection d.x d.y d.r 0 0 1 0 true false =
            Except.ok L ∧ p ∈ L) ∧
        ∀ c ∈ ([] : List Circle), ∀ L,
          circle_line_intersection c.x c.y c.r 0 0 1 0 true false = Except.ok L →
            ∀ p' ∈ L, |p.x - 0| ≤ |p'.x - 0|)) :=
  ⟨by norm_num, C3_first_hit_contract [] ⟨0, 0, 1, 0⟩ (by norm_num)⟩

/-! ### C6: discriminant and bound filtering -/

/-- With both flags `true`, the bound test reduces to `t ∈ [0, 1]`. -/
lemma tt_cond_iff (t : ℝ) :
    ((true = false ∨ 0 ≤ t) ∧ (true = false ∨ t ≤ 1)) ↔ (0 ≤ t ∧ t ≤ 1) := by
  simp

/-- C6: for a non-degenerate segment, a negative discriminant yields an empty
intersection list (for any flags); and with both flags `true`, if every root of
the quadratic lies outside `[0, 1]` the list is empty even when the unbounded
line meets the circle (discriminant nonnegative). -/
theorem C6_discriminant_and_bounds (cx cy cr x1 y1 x2 y2 : ℝ) (lb ub : Bool)
    (hA : quadA x1 y1 x2 y2 ≠ 0) :
    (quadDet cx cy cr x1 y1 x2 y2 < 0 →
      circle_line_intersection cx cy cr x1 y1 x2 y2 lb ub = Except.ok []) ∧
    (0 ≤ quadDet cx cy cr x1 y1 x2 y2 →
      (∀ s : ℝ, s = -1 ∨ s = 1 →
        ¬(0 ≤ (-quadB cx cy x1 y1 x2 y2 + s * Real.sqrt (quadDet cx cy cr x1 y1 x2 y2)) /
              (2 * quadA x1 y1 x2 y2) ∧
          (-quadB cx cy x1 y1 x2 y2 + s * Real.sqrt (quadDet cx cy cr x1 y1 x2 y2)) /
              (2 * quadA x1 y1 x2 y2) ≤ 1)) →
      circle_line_intersection cx cy cr x1 y1 x2 y2 true true = Except.ok []) := by
  constructor
  · intro hdet
    simp only [circle_line_intersection]
    rw [if_pos hdet]
  · intro hdet hroots
    simp only [circle_line_intersection]
    rw [if_neg (not_lt.mpr hdet)]
    by_cases h0 : quadDet cx cy cr x1 y1 x2 y2 = 0
    · have heq : (-quadB cx cy x1 y1 x2 y2 + 1 * Real.sqrt (quadDet cx cy cr x1 y1 x2 y2)) /
          (2 * quadA x1 y1 x2 y2) =
          -quadB cx cy x1 y1 x2 y2 / (2 * quadA x1 y1 x2 y2) := by
        rw [h0, Real.sqrt_zero]
        ring
      have hc := hroots 1 (Or.inr rfl)
      rw [heq] at hc
      rw [if_pos h0, if_neg hA]
      simp only [tt_cond_iff]
      rw [if_neg hc]
    · rw [if_neg h0, if_neg hA]
      simp only [tt_cond_iff, Except.ok.injEq]
      rw [List.filterMap_eq_nil_iff]
      intro s hs
      have hs' : s = -1 ∨ s = 1 := by
        rcases List.mem_cons.mp hs with h1 | h1
        · exact Or.inl h1
        · exact Or.inr (List.mem_singleton.mp h1)
      rw [if_neg (hroots s hs')]

/-- C6 witness: the unit circle against a segment with negative discriminant
(from (0,3) to (1,3)) and against one whose roots fall outside `[0,1]`
(from (3,0) to (4,0)). -/
theorem C6_discriminant_and_bounds_witness :
    (quadA 0 3 1 3 ≠ 0 ∧ quadDet 0 0 1 0 3 1 3 < 0 ∧
      circle_line_intersection 0 0 1 0 3 1 3 true true = Except.ok []) ∧
    (quadA 3 0 4 0 ≠ 0 ∧ 0 ≤ quadDet 0 0 1 3 0 4 0 ∧
      circle_line_intersection 0 0 1 3 0 4 0 true true = Except.ok []) := by
  have hroots : ∀ s : ℝ, s = -1 ∨ s = 1 →
      ¬(0 ≤ (-quadB 0 0 3 0 4 0 + s * Real.sqrt (quadDet 0 0 1 3 0 4 0)) /
            (2 * quadA 3 0 4 0) ∧
        (-quadB 0 0 3 0 4 0 + s * Real.sqrt (quadDet 0 0 1 3 0 4 0)) /
            (2 * quadA 3 0 4 0) ≤ 1) := by
    have h4 : Real.sqrt (quadDet 0 0 1 3 0 4 0) = 2 := by
      rw [show quadDet 0 0 1 3 0 4 0 = 2 ^ 2 by norm_num [quadDet, quadA, quadB, quadC],
        Real.sqrt_sq (by norm_num : (0:ℝ) ≤ 2)]
    intro s hs
    rcases hs with rfl | rfl <;> rw [h4] <;> norm_num [quadA, quadB]
  constructor
  · exact ⟨by norm_num [quadA], by norm_num [quadDet, quadA, quadB, quadC],
      (C6_discriminant_and_bounds 0 0 1 0 3 1 3 true true (by norm_num [quadA])).1
        (by norm_num [quadDet, quadA, quadB, quadC])⟩
  · exact ⟨by norm_num [quadA], by norm_num [quadDet, quadA, quadB, quadC],
      (C6_discriminant_and_bounds 0 0 1 3 0 4 0 true true (by norm_num [quadA])).2
        (by norm_num [quadDet, quadA, quadB, quadC]) hroots⟩

/-- C4 witness: two radius-5 circles with centers 20 apart. -/
theorem C4_tangents_touch_circles_witness :
    ((0:ℝ) ≤ 5) ∧
    (((5:ℝ) - 5) ^ 2 < ((0:ℝ) - 20) ^ 2 + ((0:ℝ) - 0) ^ 2) ∧
    (∀ s : ℝ, s = 1 ∨ s = -1 →
      |(5 - s * 5) / Real.sqrt (((0:ℝ) - 20) ^ 2 + ((0:ℝ) - 0) ^ 2)| ≤ 1) ∧
    ((get_tangents 0 0 5 20 0 5).length = 4 ∧
      ∀ seg ∈ get_tangents 0 0 5 20 0 5,
        Real.sqrt ((seg.x1 - 0) ^ 2 + (seg.y1 - 0) ^ 2) = 5 ∧
        Real.sqrt ((seg.x2 - 20) ^ 2 + (seg.y2 - 0) ^ 2) = 5) := by
  have hsq : Real.sqrt (((0:ℝ) - 20) ^ 2 + ((0:ℝ) - 0) ^ 2) = 20 := by
    rw [show ((0:ℝ) - 20) ^ 2 + ((0:ℝ) - 0) ^ 2 = 20 ^ 2 by norm_num,
      Real.sqrt_sq (by norm_num : (0:ℝ) ≤ 20)]
  have hc : ∀ s : ℝ, s = 1 ∨ s = -1 →
      |(5 - s * 5) / Real.sqrt (((0:ℝ) - 20) ^ 2 + ((0:ℝ) - 0) ^ 2)| ≤ 1 := by
    intro s hs
    rcases hs with rfl | rfl <;> rw [hsq] <;> norm_num [abs_le]
  exact ⟨by norm_num, by norm_num, hc,
    C4_tangents_touch_circles 0 0 5 20 0 5 (by norm_num) (by norm_num) (by norm_num) hc⟩

/-! ### Concrete tangent family for circles (0,0,5) and (20,0,5) -/

/-- The tangents between (0,0,r=5) and (20,0,r=5): two external tangents on the
lines `y = 5` and `y = -5`, then the two internal tangents. -/
lemma gt_concrete :
    get_tangents 0 0 5 20 0 5 =
      [⟨0, 5, 20, 5⟩, ⟨0, -5, 20, -5⟩,
       ⟨5 / 2, 5 * Real.sqrt 3 / 2, 35 / 2, -(5 * Real.sqrt 3 / 2)⟩,
       ⟨5 / 2, -(5 * Real.sqrt 3 / 2), 35 / 2, 5 * Real.sqrt 3 / 2⟩] := by
  have hsq : Real.sqrt (((0:ℝ) - 20) ^ 2 + ((0:ℝ) - 0) ^ 2) = 20 := by
    rw [show ((0:ℝ) - 20) ^ 2 + ((0:ℝ) - 0) ^ 2 = 20 ^ 2 by norm_num,
      Real.sqrt_sq (by norm_num : (0:ℝ) ≤ 20)]
  have h34 : Real.sqrt (3 / 4) = Real.sqrt 3 / 2 := by
    rw [show (3 / 4 : ℝ) = (Real.sqrt 3 / 2) ^ 2 by
        rw [div_pow, Real.sq_sqrt (by norm_num : (0:ℝ) ≤ 3)]; norm_num,
      Real.sqrt_sq (by positivity)]
  simp only [get_tangents]
  rw [if_neg (by norm_num)]
  rw [hsq]
  norm_num [List.flatMap, h34, mul_div_assoc]

/-! ### Single-obstacle occlusion queries -/

/-- Read off the point list from a successful intersection call. -/
lemma cliOk_of_cli {cx cy cr x1 y1 x2 y2 : ℝ} {lb ub : Bool} {L : List Point}
    (h : circle_line_intersection cx cy cr x1 y1 x2 y2 lb ub = Except.ok L) :
    cliOk cx cy cr x1 y1 x2 y2 lb ub = L := by
  simp [cliOk, h]

/-- A single obstacle whose intersection list is nonempty produces a hit. -/
lemma gfi_single_hit (c0 : Circle) (ray : Segment)
    (hnd : ¬(ray.x1 = ray.x2 ∧ ray.y1 = ray.y2))
    (h : ∃ L, circle_line_intersection c0.x c0.y c0.r ray.x1 ray.y1 ray.x2 ray.y2 true false =
        Except.ok L ∧ L ≠ []) :
    ∃ p c, get_first_intersection [c0] ray = Except.ok (some (p, c)) := by
  obtain ⟨L, hL, hne⟩ := h
  have hp : ray_pts c0 ray = L := cliOk_of_cli hL
  rw [gfi_eq_pure _ _ hnd]
  cases hres : gfi_pure [c0] ray with
  | some pc => exact ⟨pc.1, pc.2, rfl⟩
  | none =>
    exfalso
    unfold gfi_pure at hres
    simp only [List.foldl_cons, List.foldl_nil] at hres
    rw [hp] at hres
    exact hne ((inner_none_iff ray c0 L none).mp hres).2

/-- A single obstacle with an empty intersection list produces no hit. -/
lemma gfi_single_miss (c0 : Circle) (ray : Segment)
    (hnd : ¬(ray.x1 = ray.x2 ∧ ray.y1 = ray.y2))
    (h : circle_line_intersection c0.x c0.y c0.r ray.x1 ray.y1 ray.x2 ray.y2 true false =
        Except.ok []) :
    get_first_intersection [c0] ray = Except.ok none := by
  have hp : ray_pts c0 ray = [] := cliOk_of_cli h
  rw [gfi_eq_pure _ _ hnd]
  unfold gfi_pure
  simp only [List.foldl_cons, List.foldl_nil, hp]

/-! ### Concrete occlusion computations for the (0,0,5)/(20,0,5) scenario -/

/-- The external tangents `y = ±5` miss the obstacle (10,0,3): negative
discriminant. -/
lemma cli_ext (a : ℝ) (ha : a ^ 2 = 25) :
    circle_line_intersection 10 0 3 0 a 20 a true false = Except.ok [] := by
  simp only [circle_line_intersection]
  rw [if_pos (by unfold quadDet quadA quadB quadC; nlinarith [ha])]

/-- The internal tangents hit the obstacle (10,0,3): discriminant 10800,
both roots admissible for the lower-bounded ray. -/
lemma cli_int (a b : ℝ) (hb : b = -a) (ha : a ^ 2 = 75 / 4) :
    ∃ L, circle_line_intersection 10 0 3 (5 / 2) a (35 / 2) b true false = Except.ok L ∧
      L ≠ [] := by
  subst hb
  have hA : quadA (5 / 2) a (35 / 2) (-a) = 300 := by
    unfold quadA
    linear_combination (4:ℝ) * ha
  have hB : quadB 10 0 (5 / 2) a (35 / 2) (-a) = -300 := by
    unfold quadB
    linear_combination (-4:ℝ) * ha
  have hdet : quadDet 10 0 3 (5 / 2) a (35 / 2) (-a) = 10800 := by
    unfold quadDet quadA quadB quadC
    linear_combination (144:ℝ) * ha
  have h3lt : Real.sqrt 3 < 2 := by
    nlinarith [Real.sq_sqrt (show (0:ℝ) ≤ 3 by norm_num), Real.sqrt_nonneg 3]
  have h3nn : (0:ℝ) ≤ Real.sqrt 3 := Real.sqrt_nonneg 3
  have hsq : Real.sqrt (10800:ℝ) = 60 * Real.sqrt 3 := by
    rw [show (10800:ℝ) = 60 ^ 2 * 3 by norm_num, Real.sqrt_mul (by positivity) 3,
      Real.sqrt_sq (by norm_num : (0:ℝ) ≤ 60)]
  simp only [circle_line_intersection, hA, hB, hdet, hsq]
  rw [if_neg (by norm_num), if_neg (by norm_num), if_neg (by norm_num)]
  refine ⟨_, rfl, ?_⟩
  intro hnil
  rw [List.filterMap_eq_nil_iff] at hnil
  have h1 := hnil (-1) (by simp)
  split at h1
  · exact absurd h1 (by simp)
  · next hcond => exact hcond ⟨Or.inr (by nlinarith [h3lt, h3nn]), Or.inl (by simp)⟩

/-- C7: for circles (0,0,r=5) and (20,0,r=5), `get_tangents` returns exactly the
four tangents — two external ones on the lines `y = 5` and `y = -5` and two
internal ones crossing at the midpoint (10,0) — and against the single obstacle
(10,0,r=3) the occlusion query reports no hit for either external tangent and a
hit for each internal tangent. -/
theorem C7_concrete_scenario :
    get_tangents 0 0 5 20 0 5 =
      [⟨0, 5, 20, 5⟩, ⟨0, -5, 20, -5⟩,
       ⟨5 / 2, 5 * Real.sqrt 3 / 2, 35 / 2, -(5 * Real.sqrt 3 / 2)⟩,
       ⟨5 / 2, -(5 * Real.sqrt 3 / 2), 35 / 2, 5 * Real.sqrt 3 / 2⟩] ∧
    (∀ seg ∈ [(⟨5 / 2, 5 * Real.sqrt 3 / 2, 35 / 2, -(5 * Real.sqrt 3 / 2)⟩ : Segment),
        (⟨5 / 2, -(5 * Real.sqrt 3 / 2), 35 / 2, 5 * Real.sqrt 3 / 2⟩ : Segment)],
      seg.x1 + 1 / 2 * (seg.x2 - seg.x1) = 10 ∧ seg.y1 + 1 / 2 * (seg.y2 - seg.y1) = 0) ∧
    get_first_intersection [⟨10, 0, 3⟩] ⟨0, 5, 20, 5⟩ = Except.ok none ∧
    get_first_intersection [⟨10, 0, 3⟩] ⟨0, -5, 20, -5⟩ = Except.ok none ∧
    (∃ p c, get_first_intersection [⟨10, 0, 3⟩]
        ⟨5 / 2, 5 * Real.sqrt 3 / 2, 35 / 2, -(5 * Real.sqrt 3 / 2)⟩ =
          Except.ok (some (p, c))) ∧
    (∃ p c, get_first_intersection [⟨10, 0, 3⟩]
        ⟨5 / 2, -(5 * Real.sqrt 3 / 2), 35 / 2, 5 * Real.sqrt 3 / 2⟩ =
          Except.ok (some (p, c))) := by
  have ha : (5 * Real.sqrt 3 / 2) ^ 2 = 75 / 4 := by
    rw [div_pow, mul_pow, Real.sq_sqrt (by norm_num : (0:ℝ) ≤ 3)]
    norm_num
  have ha' : (-(5 * Real.sqrt 3 / 2)) ^ 2 = 75 / 4 := by
    rw [neg_pow, ha]
    norm_num
  refine ⟨gt_concrete, ?_, ?_, ?_, ?_, ?_⟩
  · intro seg hseg
    rcases List.mem_cons.mp hseg with rfl | hseg
    · exact ⟨by dsimp only; ring, by dsimp only; ring⟩
    · rcases List.mem_cons.mp hseg with rfl | hseg
      · exact ⟨by dsimp only; ring, by dsimp only; ring⟩
      · exact absurd hseg (List.not_mem_nil seg)
  · exact gfi_single_miss ⟨10, 0, 3⟩ ⟨0, 5, 20, 5⟩
      (by rintro ⟨h1, -⟩; norm_num at h1) (cli_ext 5 (by norm_num))
  · exact gfi_single_miss ⟨10, 0, 3⟩ ⟨0, -5, 20, -5⟩
      (by rintro ⟨h1, -⟩; norm_num at h1) (cli_ext (-5) (by norm_num))
  · exact gfi_single_hit ⟨10, 0, 3⟩ ⟨5 / 2, 5 * Real.sqrt 3 / 2, 35 / 2, -(5 * Real.sqrt 3 / 2)⟩
      (by rintro ⟨h1, -⟩; norm_num at h1)
      (cli_int (5 * Real.sqrt 3 / 2) (-(5 * Real.sqrt 3 / 2)) rfl ha)
  · exact gfi_single_hit ⟨10, 0, 3⟩ ⟨5 / 2, -(5 * Real.sqrt 3 / 2), 35 / 2, 5 * Real.sqrt 3 / 2⟩
      (by rintro ⟨h1, -⟩; norm_num at h1)
      (cli_int (-(5 * Real.sqrt 3 / 2)) (5 * Real.sqrt 3 / 2) (by ring) ha')

/-! ### C8: an obstacle beyond the target still blocks visibility -/

/-- The obstacle (20,0,1) meets the lower-bounded ray from (0,0) through (10,0)
(roots t = 1.9 and t = 2.1, both ≥ 0). -/
lemma cli_beyond :
    ∃ L, circle_line_intersection 20 0 1 0 0 10 0 true false = Except.ok L ∧ L ≠ [] := by
  have hdet : quadDet 20 0 1 0 0 10 0 = 400 := by norm_num [quadDet, quadA, quadB, quadC]
  have hA : quadA 0 0 10 0 = 100 := by norm_num [quadA]
  have hB : quadB 20 0 0 0 10 0 = -400 := by norm_num [quadB]
  have hsq : Real.sqrt (400:ℝ) = 20 := by
    rw [show (400:ℝ) = 20 ^ 2 by norm_num, Real.sqrt_sq (by norm_num : (0:ℝ) ≤ 20)]
  simp only [circle_line_intersection, hdet, hA, hB, hsq]
  rw [if_neg (by norm_num), if_neg (by norm_num), if_neg (by norm_num)]
  refine ⟨_, rfl, ?_⟩
  intro hnil
  rw [List.filterMap_eq_nil_iff] at hnil
  have h1 := hnil (-1) (by simp)
  split at h1
  · exact absurd h1 (by simp)
  · next hcond => exact hcond ⟨Or.inr (by norm_num), Or.inl (by simp)⟩

/-- The obstacle (20,0,1) does not meet the bounded segment from (0,0) to (10,0)
(both roots exceed 1). -/
lemma cli_beyond_tt :
    circle_line_intersection 20 0 1 0 0 10 0 true true = Except.ok [] := by
  have hdet : quadDet 20 0 1 0 0 10 0 = 400 := by norm_num [quadDet, quadA, quadB, quadC]
  have hA : quadA 0 0 10 0 = 100 := by norm_num [quadA]
  have hB : quadB 20 0 0 0 10 0 = -400 := by norm_num [quadB]
  have hsq : Real.sqrt (400:ℝ) = 20 := by
    rw [show (400:ℝ) = 20 ^ 2 by norm_num, Real.sqrt_sq (by norm_num : (0:ℝ) ≤ 20)]
  simp only [circle_line_intersection, hdet, hA, hB, hsq, tt_cond_iff]
  rw [if_neg (by norm_num), if_neg (by norm_num), if_neg (by norm_num)]
  simp only [Except.ok.injEq]
  rw [List.filterMap_eq_nil_iff]
  intro s hs
  have hs' : s = -1 ∨ s = 1 := by
    rcases List.mem_cons.mp hs with h1 | h1
    · exact Or.inl h1
    · exact Or.inr (List.mem_singleton.mp h1)
  rcases hs' with rfl | rfl <;> rw [if_neg (by norm_num)]

/-- C8: there are a source, a target and an obstacle lying strictly beyond the
target on the source-to-target line — the obstacle misses the finite segment
between them — for which `is_visible` still answers `false`, because the
occlusion ray is unbounded above. -/
theorem C8_obstacle_beyond_target_blocks :
    ∃ source target obstacle : Circle,
      source.y = target.y ∧ obstacle.y = target.y ∧ source.x < target.x ∧
      target.x + obstacle.r < obstacle.x ∧
      circle_line_intersection obstacle.x obstacle.y obstacle.r
        source.x source.y target.x target.y true true = Except.ok [] ∧
      is_visible target source [obstacle] = Except.ok false := by
  refine ⟨⟨0, 0, 0⟩, ⟨10, 0, 0⟩, ⟨20, 0, 1⟩, rfl, rfl, by norm_num, by norm_num,
    cli_beyond_tt, ?_⟩
  obtain ⟨p, c, hp⟩ := gfi_single_hit ⟨20, 0, 1⟩ ⟨0, 0, 10, 0⟩
    (by rintro ⟨h1, -⟩; norm_num at h1) cli_beyond
  simp only [is_visible]
  rw [tangents_pointlike 0 0 10 0 (by rintro ⟨h1, -⟩; norm_num at h1)]
  simp only [visLoop, hp]

/-! ### C1: `is_visible` ignores the circles' radii -/

/-- The obstacle (10,5,2) lies on the external tangent `y = 5` of the two
radius-5 circles: discriminant 6400, roots 0.4 and 0.6. -/
lemma cli_c1_ext :
    ∃ L, circle_line_intersection 10 5 2 0 5 20 5 true false = Except.ok L ∧ L ≠ [] := by
  have hdet : quadDet 10 5 2 0 5 20 5 = 6400 := by norm_num [quadDet, quadA, quadB, quadC]
  have hA : quadA 0 5 20 5 = 400 := by norm_num [quadA]
  have hB : quadB 10 5 0 5 20 5 = -400 := by norm_num [quadB]
  have hsq : Real.sqrt (6400:ℝ) = 80 := by
    rw [show (6400:ℝ) = 80 ^ 2 by norm_num, Real.sqrt_sq (by norm_num : (0:ℝ) ≤ 80)]
  simp only [circle_line_intersection, hdet, hA, hB, hsq]
  rw [if_neg (by norm_num), if_neg (by norm_num), if_neg (by norm_num)]
  refine ⟨_, rfl, ?_⟩
  intro hnil
  rw [List.filterMap_eq_nil_iff] at hnil
  have h1 := hnil (-1) (by simp)
  split at h1
  · exact absurd h1 (by simp)
  · next hcond => exact hcond ⟨Or.inr (by norm_num), Or.inl (by simp)⟩

/-- The obstacle (10,5,2) misses the center line from (0,0) to (20,0):
negative discriminant. -/
lemma cli_c1_center :
    circle_line_intersection 10 5 2 0 0 20 0 true false = Except.ok [] := by
  simp only [circle_line_intersection]
  rw [if_pos (by norm_num [quadDet, quadA, quadB, quadC])]

/-- C1 counterexample: with source (0,0,r=5), target (20,0,r=5) and obstacle
(10,5,2), `is_visible` answers `true` although the tangent family of the
circles *with their radii* contains the blocked external tangent `y = 5`:
the claimed equivalence fails because `is_visible` passes radius 0 to the
tangent solver. -/
theorem C1_counterexample :
    ¬((is_visible ⟨20, 0, 5⟩ ⟨0, 0, 5⟩ [⟨10, 5, 2⟩] = Except.ok false) ↔
      (∃ s ∈ get_tangents 0 0 5 20 0 5, ∃ p c,
        get_first_intersection [⟨10, 5, 2⟩] s = Except.ok (some (p, c)))) := by
  intro hiff
  have hrhs : ∃ s ∈ get_tangents 0 0 5 20 0 5, ∃ p c,
      get_first_intersection [⟨10, 5, 2⟩] s = Except.ok (some (p, c)) := by
    refine ⟨⟨0, 5, 20, 5⟩, ?_, ?_⟩
    · rw [gt_concrete]
      simp
    · exact gfi_single_hit ⟨10, 5, 2⟩ ⟨0, 5, 20, 5⟩
        (by rintro ⟨h1, -⟩; norm_num at h1) cli_c1_ext
  have hlhs : is_visible ⟨20, 0, 5⟩ ⟨0, 0, 5⟩ [⟨10, 5, 2⟩] = Except.ok true := by
    have hm := gfi_single_miss ⟨10, 5, 2⟩ ⟨0, 0, 20, 0⟩
      (by rintro ⟨h1, -⟩; norm_num at h1) cli_c1_center
    simp only [is_visible]
    rw [tangents_pointlike 0 0 20 0 (by rintro ⟨h1, -⟩; norm_num at h1)]
    simp only [visLoop, hm]
  have hfalse := hiff.mpr hrhs
  rw [hlhs] at hfalse
  simp at hfalse

/-- C1 (amended): `is_visible` never fails, and answers `false` exactly when one
of the tangents of the *radius-0* point circles at the source and target centers
(the radii of the given circles are ignored) yields a hit from the occlusion
query; otherwise it answers `true`. -/
theorem C1_amended (target source : Circle) (obstacles : List Circle) :
    ∃ b, is_visible target source obstacles = Except.ok b ∧
      (b = false ↔ ∃ s ∈ get_tangents source.x source.y 0 target.x target.y 0,
        ∃ p c, get_first_intersection obstacles s = Except.ok (some (p, c))) := by
  by_cases hc : source.x = target.x ∧ source.y = target.y
  · have ht : get_tangents source.x source.y 0 target.x target.y 0 = [] := by
      simp only [get_tangents]
      rw [if_pos (by rw [hc.1, hc.2]; norm_num)]
    refine ⟨true, ?_, ?_⟩
    · simp only [is_visible, ht, visLoop]
    · rw [ht]
      simp
  · have ht := tangents_pointlike source.x source.y target.x target.y hc
    obtain ⟨res, hres⟩ : ∃ res,
        get_first_intersection obstacles ⟨source.x, source.y, target.x, target.y⟩ =
          Except.ok res :=
      ⟨_, gfi_eq_pure obstacles ⟨source.x, source.y, target.x, target.y⟩ hc⟩
    simp only [is_visible, ht]
    cases res with
    | some pc =>
      refine ⟨false, by simp only [visLoop, hres], ?_⟩
      refine iff_of_true rfl ?_
      exact ⟨⟨source.x, source.y, target.x, target.y⟩, by simp, pc.1, pc.2, hres⟩
    | none =>
      refine ⟨true, by simp only [visLoop, hres], ?_⟩
      refine iff_of_false (by simp) ?_
      rintro ⟨s, hs, p, c, hgfi⟩
      simp only [List.mem_cons, List.not_mem_nil, or_false] at hs
      have hs' : s = ⟨source.x, source.y, target.x, target.y⟩ := by tauto
      rw [hs'] at hgfi
      rw [hres] at hgfi
      simp at hgfi

end TangentRay
